import Mathlib

/-!
Verification development for the git-doc-mapper synchronization tool
(single source file src/git_doc_mapper.py). The Python source is shallowly
embedded below: pure helpers become Lean functions, the filesystem and the
network become explicit parameters, and Python exceptions become Except
values. Source line numbers are cited next to each definition.
-/

set_option maxRecDepth 4000

/-! ## Common utilities (Python string/path primitives used by the source) -/

/-- Model of Python str.strip(c) on a character list: remove every leading and
trailing occurrence of the character. -/
def stripCharList (c : Char) (cs : List Char) : List Char :=
  ((cs.dropWhile (fun x => x = c)).reverse.dropWhile (fun x => x = c)).reverse

/-- Model of Python str.rstrip(c): remove every trailing occurrence of c. -/
def rstripChar (c : Char) (s : String) : String :=
  String.mk ((s.toList.reverse.dropWhile (fun x => x = c)).reverse)

/-- Model of Python str.split(c) (single-character separator): splitting the
empty string yields one empty piece, never the empty list. -/
def splitOnChar (c : Char) : List Char → List (List Char)
  | [] => [[]]
  | x :: xs =>
    if x = c then [] :: splitOnChar c xs
    else
      match splitOnChar c xs with
      | [] => [[x]]
      | h :: t => (x :: h) :: t

/-- True when the second list is a prefix of the first. -/
def listStartsWith : List Char → List Char → Bool
  | _, [] => true
  | [], _ :: _ => false
  | c :: cs, p :: ps => c = p && listStartsWith cs ps

/-- Split a character list around the first occurrence of a pattern:
some (before, after) when the pattern occurs, none otherwise. -/
def breakOnSub (pat : List Char) : List Char → Option (List Char × List Char)
  | [] => if pat.isEmpty then some ([], []) else none
  | c :: rest =>
    if listStartsWith (c :: rest) pat then some ([], (c :: rest).drop pat.length)
    else
      match breakOnSub pat rest with
      | none => none
      | some (pre, post) => some (c :: pre, post)

/-- Model of the Python substring test `pat in s`: true when the pattern
occurs somewhere in s. -/
def strContains (s pat : String) : Bool :=
  (breakOnSub pat.toList s.toList).isSome

/-- Model of Python str.strip(): remove leading and trailing whitespace. -/
def stripWs (s : String) : String :=
  String.mk (((s.toList.dropWhile Char.isWhitespace).reverse.dropWhile Char.isWhitespace).reverse)

/-- Model of Python str.lower() on the ASCII header values the source
lowercases. -/
def toLowerStr (s : String) : String :=
  String.mk (s.toList.map Char.toLower)

/-- Model of os.path.join / pathlib.Path(a, b) for the relative paths the
source joins under the working-tree root. -/
def pathJoin (a b : String) : String := a ++ "/" ++ b

/-- Model of pathlib.Path(p).name: the last nonempty path component. -/
def baseName (p : String) : String :=
  (((splitOnChar '/' p.toList).map String.mk).filter (fun s => s ≠ "")).getLastD ""

/-- Python dict insertion d[k] = v: update the value in place when the key is
present (keeping its position), otherwise append the binding at the end. -/
def dictInsert {ρ : Type} (k : String) (v : ρ) : List (String × ρ) → List (String × ρ)
  | [] => [(k, v)]
  | (k', v') :: rest =>
    if k' = k then (k, v) :: rest else (k', v') :: dictInsert k v rest

/-! ## Filesystem model

The source reads the local filesystem through open(), Path.exists(),
Path.is_file() and Path.is_dir(). A filesystem is a total map from path
strings to entries; `unreadable` is a regular file that exists but cannot be
opened for reading (open raises PermissionError on it). -/

inductive FSEntry : Type
  | file (contents : String)
  | unreadable
  | dir
  | absent
deriving DecidableEq

/-- The OSError subclasses that open() can raise in the modelled situations. -/
inductive OpenError : Type
  | fileNotFound
  | isADirectory
  | permissionError
deriving DecidableEq

/-- Model of Python open(p).read(): the contents for a readable regular file,
and the matching OSError otherwise. -/
def openRead (fs : String → FSEntry) (p : String) : Except OpenError String :=
  match fs p with
  | .file c => .ok c
  | .unreadable => .error .permissionError
  | .dir => .error .isADirectory
  | .absent => .error .fileNotFound

/-- Path(p).exists() and Path(p).is_file() (lines 363, 381): true for a
regular file whether or not it is readable. -/
def isFileEntry (e : FSEntry) : Bool :=
  match e with
  | .file _ => true
  | .unreadable => true
  | _ => false

/-- Path(p).exists() and Path(p).is_dir() (lines 391, 397). -/
def isDirEntry (e : FSEntry) : Bool :=
  match e with
  | .dir => true
  | _ => false

/-! ## Query builder (src/git_doc_mapper.py lines 37-199) -/

/-- SortDirection values (lines 37-43). -/
inductive SortDirectionEnum : Type
  | ASCENDING
  | DESCENDING
  | UNSPECIFIED
deriving DecidableEq

/-- The .value string of each SortDirection member. -/
def SortDirectionEnum.value : SortDirectionEnum → String
  | .ASCENDING => "ASCENDING"
  | .DESCENDING => "DESCENDING"
  | .UNSPECIFIED => "UNSPECIFIED"

/-- SQLOperator values (lines 45-91). -/
inductive SQLOperatorEnum : Type
  | BETWEEN | CONTAINS | CURRENT_USER | CURRENT_USER_EMPLOYEE | CURRENT_USER_SHOP
  | EMPTY | ENDS_WITH | EQUAL | EQUAL_COLUMN | EQUAL_OR_NULL | EXISTS
  | GREATERTHAN | GREATERTHAN_COLUMN | GREATERTHANOREQUAL | GREATERTHANOREQUAL_COLUMN
  | GREATERTHANPERCENT_COLUMN | IN | INLAST | INNEXT | LESSTHAN | LESSTHAN_COLUMN
  | LESSTHANOREQUAL | LESSTHANOREQUAL_COLUMN | LESSTHANPERCENT_COLUMN | LIKE
  | MATCH_ALL | MATCH_ANY | NEWERTHAN | NOT_CONTAINS | NOT_EMPTY | NOT_EXISTS
  | NOT_EXPIRED | NOT_IN | NOT_LIKE | NOT_NULL | NOTEQUAL | NULL | OLDERTHAN
  | REALLY_EQUAL | REALLY_GREATERTHANOREQUAL | REALLY_LESSTHANOREQUAL
  | STARTS_WITH | WITHIN
deriving DecidableEq

/-- The .value string of each SQLOperator member. -/
def SQLOperatorEnum.value : SQLOperatorEnum → String
  | .BETWEEN => "BETWEEN"
  | .CONTAINS => "CONTAINS"
  | .CURRENT_USER => "CURRENT_USER"
  | .CURRENT_USER_EMPLOYEE => "CURRENT_USER_EMPLOYEE"
  | .CURRENT_USER_SHOP => "CURRENT_USER_SHOP"
  | .EMPTY => "EMPTY"
  | .ENDS_WITH => "ENDS_WITH"
  | .EQUAL => "EQUAL"
  | .EQUAL_COLUMN => "EQUAL_COLUMN"
  | .EQUAL_OR_NULL => "EQUAL_OR_NULL"
  | .EXISTS => "EXISTS"
  | .GREATERTHAN => "GREATERTHAN"
  | .GREATERTHAN_COLUMN => "GREATERTHAN_COLUMN"
  | .GREATERTHANOREQUAL => "GREATERTHANOREQUAL"
  | .GREATERTHANOREQUAL_COLUMN => "GREATERTHANOREQUAL_COLUMN"
  | .GREATERTHANPERCENT_COLUMN => "GREATERTHANPERCENT_COLUMN"
  | .IN => "IN"
  | .INLAST => "INLAST"
  | .INNEXT => "INNEXT"
  | .LESSTHAN => "LESSTHAN"
  | .LESSTHAN_COLUMN => "LESSTHAN_COLUMN"
  | .LESSTHANOREQUAL => "LESSTHANOREQUAL"
  | .LESSTHANOREQUAL_COLUMN => "LESSTHANOREQUAL_COLUMN"
  | .LESSTHANPERCENT_COLUMN => "LESSTHANPERCENT_COLUMN"
  | .LIKE => "LIKE"
  | .MATCH_ALL => "MATCH_ALL"
  | .MATCH_ANY => "MATCH_ANY"
  | .NEWERTHAN => "NEWERTHAN"
  | .NOT_CONTAINS => "NOT_CONTAINS"
  | .NOT_EMPTY => "NOT_EMPTY"
  | .NOT_EXISTS => "NOT_EXISTS"
  | .NOT_EXPIRED => "NOT_EXPIRED"
  | .NOT_IN => "NOT_IN"
  | .NOT_LIKE => "NOT_LIKE"
  | .NOT_NULL => "NOT_NULL"
  | .NOTEQUAL => "NOTEQUAL"
  | .NULL => "NULL"
  | .OLDERTHAN => "OLDERTHAN"
  | .REALLY_EQUAL => "REALLY_EQUAL"
  | .REALLY_GREATERTHANOREQUAL => "REALLY_GREATERTHANOREQUAL"
  | .REALLY_LESSTHANOREQUAL => "REALLY_LESSTHANOREQUAL"
  | .STARTS_WITH => "STARTS_WITH"
  | .WITHIN => "WITHIN"

/-- JSON-compatible values, the codomain of the to_dict serializers. -/
inductive JValue : Type
  | str (s : String)
  | num (n : Int)
  | arr (xs : List JValue)
  | obj (fields : List (String × JValue))

/-- ColumnSpecification (lines 93-107): a projected property and its sort
direction. -/
structure ColumnSpecification : Type where
  property : String
  direction : SortDirectionEnum
deriving DecidableEq

/-- ColumnSpecification.to_dict (lines 103-107). -/
def ColumnSpecification.to_dict (c : ColumnSpecification) : JValue :=
  .obj [("property", .str c.property), ("direction", .str c.direction.value)]

/-- The two attribute-filter shapes AttributeSQL (lines 122-138) and
AttributeEquals (lines 140-148). Operand values are strings, as in the
example usages in the source. -/
inductive Attr : Type
  | sql (colName : String) (values : List String) (sql_operator : SQLOperatorEnum)
  | eq (colName : String) (value : String)
deriving DecidableEq

/-- AttributeSQL.to_dict / AttributeEquals.to_dict (lines 132-138, 145-148). -/
def Attr.to_dict : Attr → JValue
  | .sql n vs op => .obj [(n, .obj [("values", .arr (vs.map JValue.str)),
                                    ("sqlOperator", .str op.value)])]
  | .eq n v => .obj [(n, .str v)]

/-- FindListQueryBuilder (lines 165-199). The two nested list builders
(ColumnSpecificationListBuilder, AttributeListBuilder) each hold one list and
append to it, so they are inlined as the two lists they wrap. -/
structure FindListQueryBuilder : Type where
  start : Int
  batch_size : Int
  column_specifications : List ColumnSpecification
  query : List Attr

/-- The constructor defaults start=0, batch_size=500 (line 178). -/
def mkFindListQueryBuilder (start batch_size : Int) : FindListQueryBuilder :=
  { start := start, batch_size := batch_size,
    column_specifications := [], query := [] }

/-- FindListQueryBuilder() with both defaults taken. -/
def defaultFindListQueryBuilder : FindListQueryBuilder :=
  mkFindListQueryBuilder 0 500

/-- add_column_spec (lines 184-185, appending via line 117). -/
def FindListQueryBuilder.add_column_spec (b : FindListQueryBuilder)
    (c : ColumnSpecification) : FindListQueryBuilder :=
  { b with column_specifications := b.column_specifications ++ [c] }

/-- add_attribute (lines 187-188, appending via line 158). -/
def FindListQueryBuilder.add_attribute (b : FindListQueryBuilder)
    (a : Attr) : FindListQueryBuilder :=
  { b with query := b.query ++ [a] }

/-- to_dict (lines 190-196): the serialized request body. -/
def FindListQueryBuilder.to_dict (b : FindListQueryBuilder) : JValue :=
  .obj [("start", .num b.start),
        ("batchSize", .num b.batch_size),
        ("columnSpecifications", .arr (b.column_specifications.map ColumnSpecification.to_dict)),
        ("query", .obj [("attributes", .arr (b.query.map Attr.to_dict))])]

/-- A builder populated through the public API: columns added first, then
attributes, each in the given order. -/
def buildQuery (cols : List ColumnSpecification) (attrs : List Attr) :
    FindListQueryBuilder :=
  attrs.foldl FindListQueryBuilder.add_attribute
    (cols.foldl FindListQueryBuilder.add_column_spec defaultFindListQueryBuilder)

/-! ## Remote adaptor: response normalization (lines 238-271)

BeautifulSoup and the stdlib JSON decoder are external libraries. The
body-text extraction of BeautifulSoup is modelled concretely below for the
flat HTML the spec exercises; the JSON decoder is a parameter, since only
success or failure of decoding matters to the branching of the source. -/

/-- Text fragments of a markup string: the maximal runs of characters that
lie outside angle-bracket tags, in order. The Boolean is the inside-a-tag
flag, the second list the (reversed) current fragment. -/
def textFragsAux : List Char → Bool → List Char → List String
  | [], inTag, cur => if inTag then [] else [String.mk cur.reverse]
  | c :: rest, true, cur =>
    if c = '>' then textFragsAux rest false [] else textFragsAux rest true cur
  | c :: rest, false, cur =>
    if c = '<' then String.mk cur.reverse :: textFragsAux rest true []
    else textFragsAux rest false (c :: cur)

/-- Model of element.get_text(separator, strip=True): whitespace-strip every
text fragment, drop the empty ones, join the rest with the separator. -/
def soupGetText (sep : String) (markup : String) : String :=
  String.intercalate sep
    (((textFragsAux markup.toList false []).map stripWs).filter (fun s => s ≠ ""))

/-- The suffix of s after the first occurrence of pat, when pat occurs. -/
def afterFirst (pat s : String) : Option String :=
  match breakOnSub pat.toList s.toList with
  | none => none
  | some (_, post) => some (String.mk post)

/-- The prefix of s before the first occurrence of pat, when pat occurs. -/
def beforeFirst (pat s : String) : Option String :=
  match breakOnSub pat.toList s.toList with
  | none => none
  | some (pre, _) => some (String.mk pre)

/-- Model of BeautifulSoup(html).find(body-element) followed by
get_text(newline, strip=True) (lines 247-250): none when the markup has no
body tag, otherwise the stripped visible text of the body content joined by
newlines. The lenient HTML reader closes an unterminated body at the end of
input. -/
def soupBodyText (html : String) : Option String :=
  match afterFirst "<body" html with
  | none => none
  | some afterTag =>
    match afterFirst ">" afterTag with
    | none => none
    | some content =>
      let inner :=
        match beforeFirst "</body" content with
        | some pre => pre
        | none => content
      some (soupGetText "\n" inner)

/-- The body of an HTTP response as the source sees it: status code, the
Content-Type header value, and the raw text. -/
structure HttpResponse : Type where
  status : Nat
  contentType : String
  body : String

/-- The normalized contents union returned by _parse_contents: a plain text
value or a decoded JSON value (absent is Option.none one level up). J is the
value type of the external JSON decoder. -/
inductive Contents (J : Type) : Type
  | text (s : String)
  | json (j : J)
deriving DecidableEq

/-- APIAdaptor._parse_contents (lines 238-258). jsonDecode models
response.json(): some on a decodable body, none when decoding raises
JSONDecodeError. On an undecodable JSON body the source only logs, leaving
contents at the raw text (or none for an empty body). -/
def parse_contents {J : Type} (jsonDecode : String → Option J)
    (r : HttpResponse) : Option (Contents J) :=
  let content_type := toLowerStr r.contentType
  let contents : Option (Contents J) :=
    if r.body = "" then none else some (.text r.body)
  if strContains content_type "text/html" ∨ strContains content_type "application/xhtml+xml" then
    match soupBodyText r.body with
    | some bodyText => some (.text bodyText)
    | none => contents
  else if strContains content_type "application/json" then
    match jsonDecode r.body with
    | some j => some (.json j)
    | none => contents
  else contents

/-- The four outcomes of _response_hander: the 2xx return, the two
HTTPError raises for 400 and 401, and the generic RequestException raise.
Each error carries the normalized contents interpolated into its message. -/
inductive RespResult (J : Type) : Type
  | ok (contents : Option (Contents J))
  | badRequest (contents : Option (Contents J))
  | invalidAuth (contents : Option (Contents J))
  | respError (status : Nat) (contents : Option (Contents J))
deriving DecidableEq

/-- APIAdaptor._response_hander (lines 260-271), spelling kept from the
source. -/
def response_hander {J : Type} (jsonDecode : String → Option J)
    (r : HttpResponse) : RespResult J :=
  let contents := parse_contents jsonDecode r
  if 200 ≤ r.status ∧ r.status ≤ 299 then .ok contents
  else if r.status = 400 then .badRequest contents
  else if r.status = 401 then .invalidAuth contents
  else .respError r.status contents

/-! ## Remote adaptor: base-URL validation (lines 273-284) -/

/-- The result of urllib.parse.urlparse on the base URL: the three components
the source inspects. urlparse is the external URL-splitting routine, so the
validator receives its output together with the original URL string. -/
structure ParsedUrl : Type where
  scheme : String
  netloc : String
  path : String

/-- The path components computed at line 275:
parsed_url.path.strip(slash).split(slash). -/
def urlPathParts (p : ParsedUrl) : List String :=
  (splitOnChar '/' (stripCharList '/' p.path.toList)).map String.mk

/-- The three ValueError raises of _validate_url. -/
inductive UrlError : Type
  | invalidDomain
  | invalidScheme
  | invalidPath
deriving DecidableEq

/-- APIAdaptor._validate_url (lines 273-284): reject an empty network
location, a non-https scheme, or a first path component that does not
contain fmax; otherwise return the URL with exactly one trailing slash. -/
def validate_url (p : ParsedUrl) (url : String) : Except UrlError String :=
  let path_parts := urlPathParts p
  if p.netloc = "" then .error .invalidDomain
  else if p.scheme ≠ "https" then .error .invalidScheme
  else if path_parts = [] ∨ ¬ strContains (path_parts.headD "") "fmax" = true then
    .error .invalidPath
  else .ok (rstripChar '/' url ++ "/")

/-! ## File map (lines 318-424) -/

/-- One target record of the persisted map: the document-profile table
(local filename to remote document identifier, a JSON object, hence an
insertion-ordered dict) and the optional module-directory path. A JSON null
module directory is none; note that line 388 also treats an empty string as
not configured, since Python truthiness is used there. -/
structure TargetRecord : Type where
  document_profiles : List (String × String)
  module_directory : Option String

/-- The parsed file map: the value of the _targets key, an object keyed by
target name. -/
abbrev Filemap : Type := List (String × TargetRecord)

/-- The target-name set of the map (line 325). -/
def targetsOf (fm : Filemap) : Finset String :=
  (fm.map Prod.fst).toFinset

/-- FileMap.map_has_all_targets (lines 323-331): the Boolean verdict paired
with the logged set of missing names (none when nothing is logged). The
requested names are the keys of the api_connections dict, a set. -/
def map_has_all_targets (fm : Filemap) (api_set : Finset String) :
    Bool × Option (Finset String) :=
  if ¬ api_set ⊆ targetsOf fm then (false, some (api_set \ targetsOf fm))
  else (true, none)

/-- The per-file triple stored by get_mapped_files: filename, contents, and
the fixed media type. -/
abbrev FileTriple : Type := String × String × String

/-- The loop of FileMap.get_mapped_files (lines 336-344), threading the
files dict: a FileNotFoundError from open is caught and logged (the entry is
skipped), while any other OSError escapes the function. -/
def get_mapped_files_aux (fs : String → FSEntry) (tldir : String)
    (acc : List (String × FileTriple)) :
    List (String × String) → Except OpenError (List (String × FileTriple))
  | [] => .ok acc
  | (filename, doc_id) :: rest =>
    match openRead fs (pathJoin tldir filename) with
    | .ok contents =>
      get_mapped_files_aux fs tldir
        (dictInsert doc_id (filename, contents, "text/plain") acc) rest
    | .error .fileNotFound => get_mapped_files_aux fs tldir acc rest
    | .error e => .error e

/-- FileMap.get_mapped_files (lines 333-346). -/
def get_mapped_files (fs : String → FSEntry) (tldir : String)
    (document_profiles : List (String × String)) :
    Except OpenError (List (String × FileTriple)) :=
  get_mapped_files_aux fs tldir [] document_profiles

/-- The FileNotFoundError raises of FileMap._validate_map_files, carrying
the items each message names. -/
inductive MapError : Type
  | profileFileMissing (filename target : String)
  | moduleDirMissing (dirname target : String)
  | localModuleDirMissing (dirpath : String)
deriving DecidableEq

/-- The document-profile loop of _validate_map_files (lines 378-382): every
listed filename must exist as a regular file under the working-tree root. -/
def validate_profiles (fs : String → FSEntry) (tldir target : String) :
    List (String × String) → Except MapError Unit
  | [] => .ok ()
  | (filename, _) :: rest =>
    if isFileEntry (fs (pathJoin tldir filename)) then
      validate_profiles fs tldir target rest
    else .error (.profileFileMissing filename target)

/-- The module-directory checks of _validate_map_files (lines 387-399): when
a directory name is configured (truthy), it must exist as a directory, and a
directory of the same base name must exist under the working-tree root. -/
def validate_module_dir (fs : String → FSEntry) (tldir target : String) :
    Option String → Except MapError Unit
  | none => .ok ()
  | some dirname =>
    if dirname = "" then .ok ()
    else if ¬ isDirEntry (fs dirname) then .error (.moduleDirMissing dirname target)
    else if ¬ isDirEntry (fs (pathJoin tldir (baseName dirname))) then
      .error (.localModuleDirMissing (pathJoin tldir (baseName dirname)))
    else .ok ()

/-- FileMap._validate_map_files (lines 374-399): validate every target in
map order, profiles first, then the module directory. -/
def validate_map_files (fs : String → FSEntry) (tldir : String) :
    Filemap → Except MapError Unit
  | [] => .ok ()
  | (target, rec) :: rest =>
    match validate_profiles fs tldir target rec.document_profiles with
    | .error e => .error e
    | .ok _ =>
      match validate_module_dir fs tldir target rec.module_directory with
      | .error e => .error e
      | .ok _ => validate_map_files fs tldir rest

/-- The failure modes of FileMap._load_filemap: a validation error, or the
map file being absent (the template-creation path at lines 404-412 raises in
every branch). -/
inductive LoadError : Type
  | mapErr (e : MapError)
  | absentMap
deriving DecidableEq

/-- FileMap._load_filemap (lines 360-372): when the map file exists as a
regular file, its parsed contents (given here as the parsed parameter, since
the JSON reader is external) are validated and returned. -/
def load_filemap (fs : String → FSEntry) (tldir filename : String)
    (parsed : Filemap) : Except LoadError Filemap :=
  if isFileEntry (fs (pathJoin tldir filename)) then
    match validate_map_files fs tldir parsed with
    | .ok _ => .ok parsed
    | .error e => .error (.mapErr e)
  else .error .absentMap

/-! ## External command wrapper and the commit-state gate
(lines 454-456, 622-626, 764-786) -/

/-- The observable outcome of one subprocess.run call: captured stdout on
success, or any of the failures the wrapper catches. -/
inductive CliOutcome : Type
  | success (stdout : String)
  | failure
deriving DecidableEq

/-- run_cli_command (lines 764-786): the stripped stdout on success; every
caught exception path logs and falls through to return None. -/
def run_cli_command (outcome : CliOutcome) : Option String :=
  match outcome with
  | .success out => some (stripWs out)
  | .failure => none

/-- The runtime errors the push path can raise: the TypeError from len(None)
in has_uncommitted_changes and the UnboundLocalError from reading response
in _send_all before any assignment. -/
inductive PyRuntimeError : Type
  | typeError
  | unboundLocal
deriving DecidableEq

/-- Python len() applied to the wrapper result: the length for a string, a
TypeError for None. -/
def pyLen : Option String → Except PyRuntimeError Nat
  | some s => .ok s.length
  | none => .error .typeError

/-- Command.has_uncommitted_changes (lines 454-456): len(status) > 0, where
status is the wrapper result for the porcelain status command. -/
def has_uncommitted_changes (gitStatus : CliOutcome) : Except PyRuntimeError Bool :=
  match pyLen (run_cli_command gitStatus) with
  | .error e => .error e
  | .ok n => .ok (decide (0 < n))

/-- PushCommand._commit_state_is_valid (lines 622-626). -/
def commit_state_is_valid (gitStatus : CliOutcome) (allow_uncommitted : Bool) :
    Except PyRuntimeError Bool :=
  match has_uncommitted_changes gitStatus with
  | .error e => .error e
  | .ok changed =>
    if changed ∧ ¬ allow_uncommitted then .ok false else .ok true

/-! ## Push orchestrator (lines 469-626)

The response type ρ stands for the parsed body a target returns. Python
truthiness of the response at line 551 is modelled by Option: none is the
falsy None. The per-target external inputs are the interactive prompt answer
and the network outcome of api.post_files. -/

/-- The external inputs consumed for one target inside the _send_all loop:
the continue_Yn prompt answer (line 540) and the outcome of the
api.post_files round-trip (line 600), where error is a raised
RequestException. -/
structure TargetRun (ρ : Type) : Type where
  promptYes : Bool
  net : Except Unit (Option ρ)

/-- PushCommand._post_files_to_target (lines 591-604): materialize the
mapped files first (an OSError other than FileNotFoundError escapes here,
before the network call), then post; a RequestException from the post is
caught inside and becomes a None return. The uploaded bytes themselves have
no further observable effect in the model. -/
def post_files_to_target {ρ : Type} (fs : String → FSEntry) (tldir : String)
    (document_profiles : List (String × String)) (net : Except Unit (Option ρ)) :
    Except OpenError (Option ρ) :=
  match get_mapped_files fs tldir document_profiles with
  | .error e => .error e
  | .ok _files =>
    match net with
    | .error _ => .ok none
    | .ok r => .ok r

/-- The loop of PushCommand._send_all (lines 539-554). The respVar argument
is the binding state of the Python local response, which is NOT reset
between iterations: none models the name being unbound, some none a None
binding, some (some v) a response binding. When _post_files_to_target raises
an OSError it is caught at line 548 with response untouched; line 551 then
reads response, raising UnboundLocalError if it was never assigned.
_copy_files_to_target (line 545) only performs filesystem side effects and
its failure is caught by the same handler after response is already
assigned, so it does not alter which entries are recorded. -/
def send_all_aux {ρ : Type} (fs : String → FSEntry) (tldir : String)
    (profilesFor : String → List (String × String)) (respVar : Option (Option ρ)) :
    List (String × TargetRun ρ) → Except PyRuntimeError (List (String × ρ))
  | [] => .ok []
  | (target, run) :: rest =>
    if run.promptYes = false then
      send_all_aux fs tldir profilesFor respVar rest
    else
      let respVar' : Option (Option ρ) :=
        match post_files_to_target fs tldir (profilesFor target) run.net with
        | .error _ => respVar
        | .ok r => some r
      match respVar' with
      | none => .error .unboundLocal
      | some none => send_all_aux fs tldir profilesFor (some none) rest
      | some (some v) =>
        match send_all_aux fs tldir profilesFor (some (some v)) rest with
        | .error e => .error e
        | .ok tail => .ok ((target, v) :: tail)

/-- PushCommand._send_all (lines 532-556): the loop started with the local
response unbound. -/
def send_all {ρ : Type} (fs : String → FSEntry) (tldir : String)
    (profilesFor : String → List (String × String))
    (runs : List (String × TargetRun ρ)) :
    Except PyRuntimeError (List (String × ρ)) :=
  send_all_aux fs tldir profilesFor none runs

/-- The reversed dict comprehension at line 502: document identifier back to
filename, built in profile order (a duplicated identifier keeps the last
filename, as in a Python dict comprehension). -/
def reverseProfiles (profiles : List (String × String)) : List (String × String) :=
  profiles.foldl (fun acc p => dictInsert p.2 p.1 acc) []

/-- The inner loop of _remap_target_responses (lines 503-511): rebuild the
per-target response dict, replacing a key found in the reversed profiles by
its filename and passing any other key through, values unchanged. -/
def remapDocMap {ρ : Type} (revProfiles : List (String × String))
    (docMap : List (String × ρ)) : List (String × ρ) :=
  docMap.foldl
    (fun acc p =>
      match revProfiles.lookup p.1 with
      | some filename => dictInsert filename p.2 acc
      | none => dictInsert p.1 p.2 acc)
    []

/-- PushCommand._remap_target_responses (lines 494-513): apply the per-target
rebuild to every target entry, in order. -/
def remap_target_responses {ρ : Type} (profilesFor : String → List (String × String))
    (target_responses : List (String × List (String × ρ))) :
    List (String × List (String × ρ)) :=
  target_responses.map (fun p => (p.1, remapDocMap (reverseProfiles (profilesFor p.1)) p.2))

/-- The timestamp computation of _create_git_tags (lines 524-525) applied to
the isoformat rendering of the process clock: delete dashes and colons, keep
the part before the first dot. -/
def timestamp_of_iso (now_iso : String) : String :=
  String.mk (((now_iso.toList.filter (fun c => c ≠ '-')).filter
    (fun c => c ≠ ':')).takeWhile (fun c => c ≠ '.'))

/-- The single annotated tag written by _create_git_tags: its name and the
response map serialized into its annotation body (json.dumps with
indentation, so the body is determined by this map). -/
structure GitTag (μ : Type) : Type where
  tagName : String
  message : List (String × μ)
deriving DecidableEq

/-- PushCommand._create_git_tags (lines 515-530): one tag named
command.name1-name2-... .timestamp over the keys of the response map passed
in, annotated with that map. -/
def create_git_tags {μ : Type} (command : String) (now_iso : String)
    (target_responses : List (String × μ)) : GitTag μ :=
  { tagName := command ++ "." ++ String.intercalate "-" (target_responses.map Prod.fst)
      ++ "." ++ timestamp_of_iso now_iso,
    message := target_responses }

/-- PushCommand.execute (lines 479-487): gate on the commit state (which can
itself raise, see commit_state_is_valid), send to every target, and when the
response dict is truthy (nonempty), remap it and create the one tag. The
returned value is the tag creation request, none when no tag is created. -/
def push_execute {ν : Type} (fs : String → FSEntry) (tldir : String)
    (profilesFor : String → List (String × String))
    (gitStatus : CliOutcome) (allow_uncommitted : Bool)
    (runs : List (String × TargetRun (List (String × ν)))) (now_iso : String) :
    Except PyRuntimeError (Option (GitTag (List (String × ν)))) :=
  match commit_state_is_valid gitStatus allow_uncommitted with
  | .error e => .error e
  | .ok false => .ok none
  | .ok true =>
    match send_all fs tldir profilesFor runs with
    | .error e => .error e
    | .ok target_responses =>
      if target_responses.isEmpty then .ok none
      else .ok (some (create_git_tags "push" now_iso
        (remap_target_responses profilesFor target_responses)))

/-! ## Specification-side helper definitions used in theorem statements -/

/-- The key translation the remap step applies to one response key: the
filename when the reversed profiles know the identifier, the identifier
itself otherwise. -/
def mappedKey (revProfiles : List (String × String)) (k : String) : String :=
  ((revProfiles.lookup k).getD k)

/-- Soundness of a validation diagnostic: the named items really are a
violation of the named kind in the given map against the given filesystem. -/
def errNamesViolation (fs : String → FSEntry) (tldir : String) (fm : Filemap) :
    MapError → Prop
  | .profileFileMissing f t =>
    ∃ rec, (t, rec) ∈ fm ∧ (∃ d, (f, d) ∈ rec.document_profiles)
      ∧ isFileEntry (fs (pathJoin tldir f)) = false
  | .moduleDirMissing d t =>
    ∃ rec, (t, rec) ∈ fm ∧ rec.module_directory = some d ∧ d ≠ ""
      ∧ isDirEntry (fs d) = false
  | .localModuleDirMissing dp =>
    ∃ t rec d, (t, rec) ∈ fm ∧ rec.module_directory = some d ∧ d ≠ ""
      ∧ dp = pathJoin tldir (baseName d) ∧ isDirEntry (fs dp) = false

/-! ## Theorems -/

/-- C10: the push precondition gate is not total. When the external git
status command fails, run_cli_command returns an absent value instead of a
string; has_uncommitted_changes applies a length test to that absent value
and raises a TypeError instead of returning a Boolean verdict, so the
validate step of push crashes in such environments. On a successful command
the gate does return a Boolean verdict. -/
theorem c10_commit_gate_not_total :
    run_cli_command CliOutcome.failure = none
  ∧ has_uncommitted_changes CliOutcome.failure = .error .typeError
  ∧ (∀ allow : Bool, commit_state_is_valid CliOutcome.failure allow = .error .typeError)
  ∧ (∀ (ν : Type) (fs : String → FSEntry) (tldir : String)
       (profilesFor : String → List (String × String)) (allow : Bool)
       (runs : List (String × TargetRun (List (String × ν)))) (now_iso : String),
       push_execute fs tldir profilesFor CliOutcome.failure allow runs now_iso
         = .error .typeError)
  ∧ (∀ out : String, has_uncommitted_changes (CliOutcome.success out)
       = .ok (decide (0 < (stripWs out).length))) := by
  refine ⟨rfl, rfl, ?_, ?_, ?_⟩
  · intro allow; rfl
  · intro ν fs tldir profilesFor allow runs now_iso; rfl
  · intro out; rfl

/-- Witness for C10 at a concrete environment: the gate crashes with a
TypeError when the status command fails with the allow-uncommitted flag
set. -/
theorem c10_commit_gate_witness :
    commit_state_is_valid CliOutcome.failure true = .error .typeError :=
  c10_commit_gate_not_total.2.2.1 true

/-- C9: map_has_all_targets returns true exactly when every requested target
name is present in the target set of the map; when it returns false, the
logged set is exactly the missing names; in particular requesting A and B
against a map holding only A returns false with B identified as missing. -/
theorem c9_map_has_all_targets :
    (∀ (fm : Filemap) (req : Finset String),
        ((map_has_all_targets fm req).1 = true ↔ req ⊆ targetsOf fm)
      ∧ ((map_has_all_targets fm req).1 = false →
          (map_has_all_targets fm req).2 = some (req \ targetsOf fm))
      ∧ (∀ t, t ∈ req \ targetsOf fm ↔ t ∈ req ∧ t ∉ targetsOf fm))
  ∧ map_has_all_targets [("A", { document_profiles := [], module_directory := none })]
      ({"A", "B"} : Finset String) = (false, some {"B"}) := by
  constructor
  · intro fm req
    by_cases h : req ⊆ targetsOf fm <;>
      simp [map_has_all_targets, h, Finset.mem_sdiff]
  · decide

/-- Witness for C9 at a concrete map and request set. -/
theorem c9_map_has_all_targets_witness :
    ((map_has_all_targets [("A", { document_profiles := [], module_directory := none })]
        ({"A"} : Finset String)).1 = true
      ↔ ({"A"} : Finset String) ⊆ targetsOf
          [("A", { document_profiles := [], module_directory := none })]) :=
  (c9_map_has_all_targets.1 _ _).1

/-- Splitting never produces the empty list of pieces, mirroring the Python
behaviour where even the empty string splits into one empty piece. -/
theorem splitOnChar_ne_nil (c : Char) (cs : List Char) : splitOnChar c cs ≠ [] := by
  induction cs with
  | nil => simp [splitOnChar]
  | cons x xs ih =>
    simp only [splitOnChar]
    split
    · simp
    · cases h : splitOnChar c xs with
      | nil => simp
      | cons a l => simp

/-- The path-component list of a parsed URL is never empty. -/
theorem urlPathParts_ne_nil (p : ParsedUrl) : urlPathParts p ≠ [] := by
  unfold urlPathParts
  intro h
  exact splitOnChar_ne_nil '/' (stripCharList '/' p.path.toList) (List.map_eq_nil_iff.mp h)

/-- The default-valued head of a nonempty list is a member of it. -/
theorem headD_mem_of_ne_nil {α : Type} (l : List α) (d : α) (h : l ≠ []) :
    l.headD d ∈ l := by
  cases l with
  | nil => exact absurd rfl h
  | cons a t => simp [List.headD]

/-- C4: adaptor construction rejects any base URL whose scheme is not https,
whose host is empty, or whose path has no component containing the fmax
application marker; the three example URLs behave as the specification
states, with the accepted one normalized to exactly one trailing slash. -/
theorem c4_validate_url :
    (∀ (p : ParsedUrl) (url : String), p.scheme ≠ "https" →
        ∃ e, validate_url p url = .error e)
  ∧ (∀ (p : ParsedUrl) (url : String), p.netloc = "" →
        ∃ e, validate_url p url = .error e)
  ∧ (∀ (p : ParsedUrl) (url : String),
        (∀ part ∈ urlPathParts p, strContains part "fmax" = false) →
        ∃ e, validate_url p url = .error e)
  ∧ validate_url { scheme := "http", netloc := "example.com", path := "/fmax/" }
      "http://example.com/fmax/" = .error .invalidScheme
  ∧ validate_url { scheme := "https", netloc := "example.com", path := "/other/" }
      "https://example.com/other/" = .error .invalidPath
  ∧ validate_url { scheme := "https", netloc := "example.com", path := "/fmax" }
      "https://example.com/fmax" = .ok "https://example.com/fmax/" := by
  refine ⟨?_, ?_, ?_, rfl, rfl, rfl⟩
  · intro p url h
    by_cases h1 : p.netloc = ""
    · exact ⟨.invalidDomain, by simp [validate_url, h1]⟩
    · exact ⟨.invalidScheme, by simp [validate_url, h1, h]⟩
  · intro p url h
    exact ⟨.invalidDomain, by simp [validate_url, h]⟩
  · intro p url h
    have hc : strContains ((urlPathParts p).headD "") "fmax" = false :=
      h ((urlPathParts p).headD "") (headD_mem_of_ne_nil _ _ (urlPathParts_ne_nil p))
    by_cases h1 : p.netloc = ""
    · exact ⟨.invalidDomain, by simp [validate_url, h1]⟩
    by_cases h2 : p.scheme = "https"
    · refine ⟨.invalidPath, ?_⟩
      have hc2 : strContains (((urlPathParts p).head?).getD "") "fmax" = false := by
        simpa using hc
      simp [validate_url, h1, h2, hc2]
    · exact ⟨.invalidScheme, by simp [validate_url, h1, h2]⟩

/-- Folding add_attribute appends the added filters to the query list. -/
theorem foldl_add_attribute (attrs : List Attr) :
    ∀ b : FindListQueryBuilder,
      attrs.foldl FindListQueryBuilder.add_attribute b
        = { b with query := b.query ++ attrs } := by
  induction attrs with
  | nil => intro b; simp
  | cons a rest ih =>
    intro b
    simp only [List.foldl_cons]
    rw [ih]
    simp [FindListQueryBuilder.add_attribute]

/-- Folding add_column_spec appends the added columns in order. -/
theorem foldl_add_column_spec (cols : List ColumnSpecification) :
    ∀ b : FindListQueryBuilder,
      cols.foldl FindListQueryBuilder.add_column_spec b
        = { b with column_specifications := b.column_specifications ++ cols } := by
  induction cols with
  | nil => intro b; simp
  | cons c rest ih =>
    intro b
    simp only [List.foldl_cons]
    rw [ih]
    simp [FindListQueryBuilder.add_column_spec]

/-- A builder populated through the API holds exactly the defaults and the
added columns and filters, in insertion order. -/
theorem buildQuery_eq (cols : List ColumnSpecification) (attrs : List Attr) :
    buildQuery cols attrs
      = { start := 0, batch_size := 500,
          column_specifications := cols, query := attrs } := by
  unfold buildQuery
  rw [foldl_add_column_spec, foldl_add_attribute]
  simp [defaultFindListQueryBuilder, mkFindListQueryBuilder]

/-- C7: serializing a query built from any column specifications and
attribute filters produces exactly the start/batchSize/columnSpecifications/
query structure, with the column projections in insertion order, one filter
entry per added filter (permuting the filter insertions permutes the
serialized entries correspondingly, so the entry set is insertion-order
independent), defaults start 0 and batch size 500; the specification example
with columns A ascending and B descending and filters X equals v1 and Y in
v2,v3 serializes exactly as stated. Serialization is a pure function of the
builder value by construction. -/
theorem c7_query_serialization (cols : List ColumnSpecification)
    (attrs attrs' : List Attr) (hperm : attrs.Perm attrs') :
    (buildQuery cols attrs).to_dict
      = .obj [("start", .num 0), ("batchSize", .num 500),
              ("columnSpecifications", .arr (cols.map ColumnSpecification.to_dict)),
              ("query", .obj [("attributes", .arr (attrs.map Attr.to_dict))])]
  ∧ ((buildQuery cols attrs).query.map Attr.to_dict).Perm
      ((buildQuery cols attrs').query.map Attr.to_dict)
  ∧ defaultFindListQueryBuilder.start = 0
  ∧ defaultFindListQueryBuilder.batch_size = 500
  ∧ (buildQuery
        [{ property := "A", direction := .ASCENDING },
         { property := "B", direction := .DESCENDING }]
        [.eq "X" "v1", .sql "Y" ["v2", "v3"] .IN]).to_dict
      = .obj [("start", .num 0), ("batchSize", .num 500),
              ("columnSpecifications", .arr
                [.obj [("property", .str "A"), ("direction", .str "ASCENDING")],
                 .obj [("property", .str "B"), ("direction", .str "DESCENDING")]]),
              ("query", .obj [("attributes", .arr
                [.obj [("X", .str "v1")],
                 .obj [("Y", .obj [("values", .arr [.str "v2", .str "v3"]),
                                   ("sqlOperator", .str "IN")])]])])] := by
  refine ⟨?_, ?_, rfl, rfl, rfl⟩
  · rw [buildQuery_eq]
    rfl
  · rw [buildQuery_eq, buildQuery_eq]
    exact hperm.map Attr.to_dict

/-- Witness for C7: two filter insertion orders over distinct fields give
permuted (here, the same two) serialized filter entries. -/
theorem c7_query_serialization_witness :
    ((buildQuery [] [.eq "X" "v1", .eq "Y" "v2"]).query.map Attr.to_dict).Perm
      ((buildQuery [] [.eq "Y" "v2", .eq "X" "v1"]).query.map Attr.to_dict) :=
  (c7_query_serialization [] [.eq "X" "v1", .eq "Y" "v2"]
    [.eq "Y" "v2", .eq "X" "v1"] (by decide)).2.1

/-- Inserting a key that is not already bound appends the binding. -/
theorem dictInsert_of_not_mem_keys {ρ : Type} (k : String) (v : ρ)
    (l : List (String × ρ)) (h : k ∉ l.map Prod.fst) :
    dictInsert k v l = l ++ [(k, v)] := by
  induction l with
  | nil => rfl
  | cons p rest ih =>
    obtain ⟨a, b⟩ := p
    simp only [List.map_cons, List.mem_cons] at h
    push_neg at h
    simp only [dictInsert, List.cons_append]
    rw [if_neg (fun hc => h.1 hc.symm), ih h.2]

/-- One step of the remap loop is an insertion at the translated key. -/
theorem remap_step_eq {ρ : Type} (rev : List (String × String))
    (acc : List (String × ρ)) (p : String × ρ) :
    (match rev.lookup p.1 with
     | some filename => dictInsert filename p.2 acc
     | none => dictInsert p.1 p.2 acc) = dictInsert (mappedKey rev p.1) p.2 acc := by
  cases h : rev.lookup p.1 <;> simp [mappedKey, h]

/-- The remap fold, started from any dict whose keys avoid the translated
keys: when the translated keys are pairwise distinct, it appends exactly the
translated entries in order. -/
theorem remap_foldl_spec {ρ : Type} (rev : List (String × String)) :
    ∀ (docMap : List (String × ρ)) (acc : List (String × ρ)),
      (∀ p ∈ docMap, mappedKey rev p.1 ∉ acc.map Prod.fst) →
      (docMap.map (fun p => mappedKey rev p.1)).Nodup →
      docMap.foldl
        (fun acc p =>
          match rev.lookup p.1 with
          | some filename => dictInsert filename p.2 acc
          | none => dictInsert p.1 p.2 acc) acc
        = acc ++ docMap.map (fun p => (mappedKey rev p.1, p.2)) := by
  intro docMap
  induction docMap with
  | nil => intro acc _ _; simp
  | cons p rest ih =>
    intro acc hfresh hnodup
    simp only [List.foldl_cons]
    rw [remap_step_eq rev acc p,
      dictInsert_of_not_mem_keys _ _ _ (hfresh p (List.mem_cons_self p rest))]
    simp only [List.map_cons, List.nodup_cons] at hnodup
    rw [ih (acc ++ [(mappedKey rev p.1, p.2)]) ?_ hnodup.2]
    · simp
    · intro q hq
      simp only [List.map_append, List.mem_append, List.map_cons]
      push_neg
      constructor
      · exact hfresh q (List.mem_cons_of_mem p hq)
      · intro hc
        simp only [List.map_nil, List.mem_singleton] at hc
        exact hnodup.1 (hc ▸ List.mem_map_of_mem (fun p => mappedKey rev p.1) hq)

/-- C6 counterexample: a response key equal to a known local filename is
overwritten by the remapped entry of the matching document identifier, so
the pass-through entry the claim requires is absent from the result. -/
theorem c6_remap_counterexample :
    ("file.js", 1) ∉ remapDocMap (reverseProfiles [("file.js", "docId123")])
      ([("file.js", 1), ("docId123", 2)] : List (String × Nat))
  ∧ remapDocMap (reverseProfiles [("file.js", "docId123")])
      ([("file.js", 1), ("docId123", 2)] : List (String × Nat)) = [("file.js", 2)] :=
  ⟨by decide, rfl⟩

/-- C6 (amended): provided the translated keys of a response map are
pairwise distinct (no remapped filename collides with another key of the
map), the remap step replaces each key known to the reversed profile map by
its filename and passes unknown identifiers through, all values unchanged;
the specification example evaluates as stated. -/
theorem c6_remap_responses {ρ : Type} (rev : List (String × String))
    (docMap : List (String × ρ))
    (h : (docMap.map (fun p => mappedKey rev p.1)).Nodup) :
    remapDocMap rev docMap = docMap.map (fun p => (mappedKey rev p.1, p.2))
  ∧ (∀ p ∈ docMap, (mappedKey rev p.1, p.2) ∈ remapDocMap rev docMap)
  ∧ remap_target_responses (fun _ => [("file.js", "docId123")])
      ([("target", [("docId123", 0)])] : List (String × List (String × Nat)))
      = [("target", [("file.js", 0)])] := by
  have heq : remapDocMap rev docMap = docMap.map (fun p => (mappedKey rev p.1, p.2)) := by
    unfold remapDocMap
    rw [remap_foldl_spec rev docMap [] (by simp) h]
    simp
  refine ⟨heq, ?_, rfl⟩
  intro p hp
  rw [heq]
  exact List.mem_map_of_mem _ hp

/-- Witness for C6 at a concrete profile map and response. -/
theorem c6_remap_responses_witness :
    remapDocMap [("docId123", "file.js")] ([("docId123", 5)] : List (String × Nat))
      = ([("docId123", 5)] : List (String × Nat)).map
          (fun p => (mappedKey [("docId123", "file.js")] p.1, p.2)) :=
  (c6_remap_responses [("docId123", "file.js")] [("docId123", 5)] (by decide)).1

/-- A key is bound after an insertion exactly when it is the inserted key or
was bound before. -/
theorem dictInsert_mem_key_iff {ρ : Type} (k : String) (v : ρ)
    (l : List (String × ρ)) (d : String) :
    (∃ w, (d, w) ∈ dictInsert k v l) ↔ d = k ∨ ∃ w, (d, w) ∈ l := by
  induction l with
  | nil => simp [dictInsert, Prod.ext_iff]
  | cons p rest ih =>
    obtain ⟨a, b⟩ := p
    simp only [dictInsert]
    split
    · rename_i hak
      subst hak
      simp only [List.mem_cons, Prod.mk.injEq]
      constructor
      · rintro ⟨w, ⟨rfl, rfl⟩ | hw⟩
        · exact Or.inl rfl
        · exact Or.inr ⟨w, Or.inr hw⟩
      · rintro (rfl | ⟨w, ⟨rfl, rfl⟩ | hw⟩)
        · exact ⟨v, Or.inl ⟨rfl, rfl⟩⟩
        · exact ⟨v, Or.inl ⟨rfl, rfl⟩⟩
        · exact ⟨w, Or.inr hw⟩
    · simp only [List.mem_cons, Prod.mk.injEq]
      constructor
      · rintro ⟨w, ⟨rfl, rfl⟩ | hw⟩
        · exact Or.inr ⟨w, Or.inl ⟨rfl, rfl⟩⟩
        · rcases ih.mp ⟨w, hw⟩ with h | ⟨w', hw'⟩
          · exact Or.inl h
          · exact Or.inr ⟨w', Or.inr hw'⟩
      · rintro (rfl | ⟨w, ⟨rfl, rfl⟩ | hw⟩)
        · obtain ⟨w, hw⟩ := ih.mpr (Or.inl rfl)
          exact ⟨w, Or.inr hw⟩
        · exact ⟨w, Or.inl ⟨rfl, rfl⟩⟩
        · obtain ⟨w', hw'⟩ := ih.mpr (Or.inr ⟨w, hw⟩)
          exact ⟨w', Or.inr hw'⟩

/-- Every binding present after an insertion is the inserted one or was
present before. -/
theorem dictInsert_mem {ρ : Type} (k : String) (v : ρ) (l : List (String × ρ))
    (d : String) (w : ρ) :
    (d, w) ∈ dictInsert k v l → (d = k ∧ w = v) ∨ (d, w) ∈ l := by
  induction l with
  | nil => simp [dictInsert, Prod.ext_iff]
  | cons p rest ih =>
    obtain ⟨a, b⟩ := p
    simp only [dictInsert]
    split
    · rename_i hak
      subst hak
      simp only [List.mem_cons, Prod.mk.injEq]
      rintro (⟨rfl, rfl⟩ | hw)
      · exact Or.inl ⟨rfl, rfl⟩
      · exact Or.inr (Or.inr hw)
    · simp only [List.mem_cons, Prod.mk.injEq]
      rintro (⟨rfl, rfl⟩ | hw)
      · exact Or.inr (Or.inl ⟨rfl, rfl⟩)
      · rcases ih hw with h | h
        · exact Or.inl h
        · exact Or.inr (Or.inr h)

/-- The materialization loop, from any accumulated dict: when every listed
path is a readable regular file or missing, the loop succeeds, its keys are
the accumulated keys plus the identifiers of existing files, and every new
binding records a listed filename with its on-disk contents and the fixed
media type. -/
theorem get_mapped_files_aux_spec (fs : String → FSEntry) (tldir : String) :
    ∀ (profiles : List (String × String)) (acc : List (String × FileTriple)),
      (∀ p ∈ profiles, fs (pathJoin tldir p.1) ≠ FSEntry.dir
        ∧ fs (pathJoin tldir p.1) ≠ FSEntry.unreadable) →
      ∃ m, get_mapped_files_aux fs tldir acc profiles = .ok m
        ∧ (∀ d : String, (∃ w, (d, w) ∈ m) ↔
            ((∃ w, (d, w) ∈ acc) ∨
              ∃ f c, (f, d) ∈ profiles ∧ fs (pathJoin tldir f) = .file c))
        ∧ (∀ d f c mt, (d, (f, c, mt)) ∈ m →
            (d, (f, c, mt)) ∈ acc ∨
              ((f, d) ∈ profiles ∧ fs (pathJoin tldir f) = .file c
                ∧ mt = "text/plain")) := by
  intro profiles
  induction profiles with
  | nil =>
    intro acc _
    exact ⟨acc, rfl, by simp, by simp⟩
  | cons p rest ih =>
    intro acc hok
    obtain ⟨filename, doc_id⟩ := p
    have hp := hok _ (List.mem_cons_self _ _)
    cases hfs : fs (pathJoin tldir filename) with
    | unreadable => exact absurd hfs hp.2
    | dir => exact absurd hfs hp.1
    | file c =>
      obtain ⟨m, hm, hkey, hval⟩ :=
        ih (dictInsert doc_id (filename, c, "text/plain") acc)
          (fun q hq => hok q (List.mem_cons_of_mem _ hq))
      refine ⟨m, ?_, ?_, ?_⟩
      · simpa [get_mapped_files_aux, openRead, hfs] using hm
      · intro d
        rw [hkey d, dictInsert_mem_key_iff]
        constructor
        · rintro ((rfl | hacc) | ⟨f, c', hf, hfile⟩)
          · exact Or.inr ⟨filename, c, List.mem_cons_self _ _, hfs⟩
          · exact Or.inl hacc
          · exact Or.inr ⟨f, c', List.mem_cons_of_mem _ hf, hfile⟩
        · rintro (hacc | ⟨f, c', hf, hfile⟩)
          · exact Or.inl (Or.inr hacc)
          · rcases List.mem_cons.mp hf with heq | hf'
            · rw [Prod.mk.injEq] at heq
              exact Or.inl (Or.inl heq.2)
            · exact Or.inr ⟨f, c', hf', hfile⟩
      · intro d f c' mt hmem
        rcases hval d f c' mt hmem with hins | ⟨hf, hfile, hmt⟩
        · rcases dictInsert_mem _ _ _ _ _ hins with ⟨rfl, htrip⟩ | hacc
          · rw [Prod.mk.injEq, Prod.mk.injEq] at htrip
            obtain ⟨rfl, rfl, rfl⟩ := htrip
            exact Or.inr ⟨List.mem_cons_self _ _, hfs, rfl⟩
          · exact Or.inl hacc
        · exact Or.inr ⟨List.mem_cons_of_mem _ hf, hfile, hmt⟩
    | absent =>
      obtain ⟨m, hm, hkey, hval⟩ :=
        ih acc (fun q hq => hok q (List.mem_cons_of_mem _ hq))
      refine ⟨m, ?_, ?_, ?_⟩
      · simpa [get_mapped_files_aux, openRead, hfs] using hm
      · intro d
        rw [hkey d]
        constructor
        · rintro (hacc | ⟨f, c', hf, hfile⟩)
          · exact Or.inl hacc
          · exact Or.inr ⟨f, c', List.mem_cons_of_mem _ hf, hfile⟩
        · rintro (hacc | ⟨f, c', hf, hfile⟩)
          · exact Or.inl hacc
          · rcases List.mem_cons.mp hf with heq | hf'
            · rw [Prod.mk.injEq] at heq
              rw [heq.1] at hfile
              rw [hfile] at hfs
              cases hfs
            · exact Or.inr ⟨f, c', hf', hfile⟩
      · intro d f c' mt hmem
        rcases hval d f c' mt hmem with hacc | ⟨hf, hfile, hmt⟩
        · exact Or.inl hacc
        · exact Or.inr ⟨List.mem_cons_of_mem _ hf, hfile, hmt⟩

/-- C8 counterexample: a listed path that exists on disk as a directory
makes materialization raise an OSError (IsADirectoryError) instead of
returning a map, contrary to the claim that it returns a map and never
raises. -/
theorem c8_materialize_counterexample :
    get_mapped_files (fun p => if p = "root/sub" then FSEntry.dir else FSEntry.absent)
      "root" [("sub", "d1")] = .error .isADirectory :=
  rfl

/-- C8 (amended): when every listed path is a readable regular file or
missing from disk, materializing returns, rather than raising, a map from
document identifier to (filename, contents, media type) whose keys are
exactly the identifiers of entries whose file exists on disk under the
working-tree root, every binding recording a listed filename, its on-disk
contents, and the text/plain media type; a missing file is logged and
silently excluded. A listed path that exists but is not a readable regular
file (a directory or an unreadable file) instead raises an OSError that
aborts materialization (push catches it one level up, per target). -/
theorem c8_get_mapped_files (fs : String → FSEntry) (tldir : String)
    (profiles : List (String × String))
    (h : ∀ p ∈ profiles, fs (pathJoin tldir p.1) ≠ FSEntry.dir
      ∧ fs (pathJoin tldir p.1) ≠ FSEntry.unreadable) :
    ∃ m, get_mapped_files fs tldir profiles = .ok m
      ∧ (∀ d : String, (∃ w, (d, w) ∈ m) ↔
          ∃ f c, (f, d) ∈ profiles ∧ fs (pathJoin tldir f) = .file c)
      ∧ (∀ d f c mt, (d, (f, c, mt)) ∈ m →
          (f, d) ∈ profiles ∧ fs (pathJoin tldir f) = .file c
            ∧ mt = "text/plain") := by
  obtain ⟨m, hm, hkey, hval⟩ := get_mapped_files_aux_spec fs tldir profiles [] h
  refine ⟨m, hm, ?_, ?_⟩
  · intro d
    rw [hkey d]
    simp
  · intro d f c mt hmem
    rcases hval d f c mt hmem with hacc | hrec
    · simp at hacc
    · exact hrec

/-- Witness for C8 at a concrete profile list: one existing file, one
missing file; only the existing one is materialized. -/
theorem c8_get_mapped_files_witness :
    ∃ m, get_mapped_files
        (fun p => if p = "root/a.js" then FSEntry.file "A" else FSEntry.absent)
        "root" [("a.js", "d1"), ("gone.js", "d2")] = .ok m
      ∧ (∀ d : String, (∃ w, (d, w) ∈ m) ↔
          ∃ f c, (f, d) ∈ [("a.js", "d1"), ("gone.js", "d2")]
            ∧ (fun p => if p = "root/a.js" then FSEntry.file "A" else FSEntry.absent)
                (pathJoin "root" f) = .file c)
      ∧ (∀ d f c mt, (d, (f, c, mt)) ∈ m →
          (f, d) ∈ [("a.js", "d1"), ("gone.js", "d2")]
            ∧ (fun p => if p = "root/a.js" then FSEntry.file "A" else FSEntry.absent)
                (pathJoin "root" f) = .file c
            ∧ mt = "text/plain") :=
  c8_get_mapped_files
    (fun p => if p = "root/a.js" then FSEntry.file "A" else FSEntry.absent)
    "root" [("a.js", "d1"), ("gone.js", "d2")] (by decide)

/-- The profile loop accepts exactly when every listed file exists as a
regular file under the working-tree root. -/
theorem validate_profiles_ok_iff (fs : String → FSEntry) (tldir target : String)
    (l : List (String × String)) :
    validate_profiles fs tldir target l = .ok () ↔
      ∀ p ∈ l, isFileEntry (fs (pathJoin tldir p.1)) = true := by
  induction l with
  | nil => simp [validate_profiles]
  | cons p rest ih =>
    obtain ⟨f, d⟩ := p
    simp only [validate_profiles]
    split
    · rename_i hf
      rw [ih]
      simp only [List.mem_cons]
      constructor
      · rintro hall q (rfl | hq)
        · exact hf
        · exact hall q hq
      · intro hall q hq
        exact hall q (Or.inr hq)
    · rename_i hf
      constructor
      · intro h
        exact Except.noConfusion h
      · intro hall
        exact absurd (hall (f, d) (List.mem_cons_self _ _)) hf

/-- A profile-loop diagnostic names a file that is really listed for this
target and really missing. -/
theorem validate_profiles_error (fs : String → FSEntry) (tldir target : String)
    (l : List (String × String)) (e : MapError)
    (h : validate_profiles fs tldir target l = .error e) :
    ∃ f, e = .profileFileMissing f target ∧ (∃ d, (f, d) ∈ l)
      ∧ isFileEntry (fs (pathJoin tldir f)) = false := by
  induction l with
  | nil => exact Except.noConfusion h
  | cons p rest ih =>
    obtain ⟨f, d⟩ := p
    simp only [validate_profiles] at h
    split at h
    · obtain ⟨f', he, ⟨d', hm⟩, hfile⟩ := ih h
      exact ⟨f', he, ⟨d', List.mem_cons_of_mem _ hm⟩, hfile⟩
    · rename_i hf
      simp only [Except.error.injEq] at h
      exact ⟨f, h.symm, ⟨d, List.mem_cons_self _ _⟩,
        Bool.not_eq_true _ ▸ eq_false_of_ne_true hf⟩

/-- The module-directory check accepts exactly when a configured nonempty
directory exists as a directory both at its own path and, by base name,
under the working-tree root. -/
theorem validate_module_dir_ok_iff (fs : String → FSEntry) (tldir target : String)
    (md : Option String) :
    validate_module_dir fs tldir target md = .ok () ↔
      ∀ dn, md = some dn → dn ≠ "" →
        isDirEntry (fs dn) = true
          ∧ isDirEntry (fs (pathJoin tldir (baseName dn))) = true := by
  cases md with
  | none => simp [validate_module_dir]
  | some dn =>
    simp only [validate_module_dir, Option.some.injEq]
    by_cases h0 : dn = ""
    · subst h0
      simp
    · by_cases h1 : isDirEntry (fs dn) = true
      · by_cases h2 : isDirEntry (fs (pathJoin tldir (baseName dn))) = true
        · simp [h0, h1, h2]
        · simp only [if_neg h0, if_neg (fun hc => absurd h1 hc), if_pos h2]
          constructor
          · intro h
            exact Except.noConfusion h
          · intro hall
            exact absurd (hall dn rfl h0).2 h2
      · simp only [if_neg h0, if_pos (fun hc => absurd hc h1)]
        constructor
        · intro h
          exact Except.noConfusion h
        · intro hall
          exact absurd (hall dn rfl h0).1 h1

/-- A module-directory diagnostic names a directory that is really
configured for this target and really missing, of the kind the message
states. -/
theorem validate_module_dir_error (fs : String → FSEntry) (tldir target : String)
    (md : Option String) (e : MapError)
    (h : validate_module_dir fs tldir target md = .error e) :
    ∃ dn, md = some dn ∧ dn ≠ ""
      ∧ ((e = .moduleDirMissing dn target ∧ isDirEntry (fs dn) = false)
        ∨ (e = .localModuleDirMissing (pathJoin tldir (baseName dn))
            ∧ isDirEntry (fs (pathJoin tldir (baseName dn))) = false)) := by
  cases md with
  | none => exact Except.noConfusion h
  | some dn =>
    simp only [validate_module_dir] at h
    split at h
    · exact Except.noConfusion h
    · split at h
      · rename_i h0 h1
        simp only [Except.error.injEq] at h
        exact ⟨dn, rfl, h0, Or.inl ⟨h.symm,
          Bool.not_eq_true _ ▸ eq_false_of_ne_true h1⟩⟩
      · split at h
        · rename_i h0 h1 h2
          simp only [Except.error.injEq] at h
          exact ⟨dn, rfl, h0, Or.inr ⟨h.symm,
            Bool.not_eq_true _ ▸ eq_false_of_ne_true h2⟩⟩
        · exact Except.noConfusion h

/-- The full map validation accepts exactly when no target violates any of
the three load-time requirements. -/
theorem validate_map_files_ok_iff (fs : String → FSEntry) (tldir : String)
    (fm : Filemap) :
    validate_map_files fs tldir fm = .ok () ↔
      ∀ tr ∈ fm,
        (∀ p ∈ tr.2.document_profiles, isFileEntry (fs (pathJoin tldir p.1)) = true)
        ∧ (∀ dn, tr.2.module_directory = some dn → dn ≠ "" →
            isDirEntry (fs dn) = true
              ∧ isDirEntry (fs (pathJoin tldir (baseName dn))) = true) := by
  induction fm with
  | nil => simp [validate_map_files]
  | cons tr rest ih =>
    obtain ⟨t, rec⟩ := tr
    simp only [validate_map_files]
    cases hp : validate_profiles fs tldir t rec.document_profiles with
    | error e =>
      constructor
      · intro h
        exact Except.noConfusion h
      · intro hall
        have hok := (validate_profiles_ok_iff fs tldir t rec.document_profiles).mpr
          (hall (t, rec) (List.mem_cons_self _ _)).1
        rw [hok] at hp
        exact Except.noConfusion hp
    | ok u =>
      cases u
      cases hmd : validate_module_dir fs tldir t rec.module_directory with
      | error e =>
        constructor
        · intro h
          exact Except.noConfusion h
        · intro hall
          have hok := (validate_module_dir_ok_iff fs tldir t rec.module_directory).mpr
            (hall (t, rec) (List.mem_cons_self _ _)).2
          rw [hok] at hmd
          exact Except.noConfusion hmd
      | ok u =>
        cases u
        rw [ih]
        simp only [List.mem_cons]
        constructor
        · rintro hall q (rfl | hq)
          · exact ⟨(validate_profiles_ok_iff fs tldir t rec.document_profiles).mp hp,
              (validate_module_dir_ok_iff fs tldir t rec.module_directory).mp hmd⟩
          · exact hall q hq
        · intro hall q hq
          exact hall q (Or.inr hq)

/-- Every diagnostic produced by the map validation names a genuine
violation of the named kind. -/
theorem validate_map_files_error (fs : String → FSEntry) (tldir : String)
    (fm : Filemap) (e : MapError)
    (h : validate_map_files fs tldir fm = .error e) :
    errNamesViolation fs tldir fm e := by
  induction fm with
  | nil => exact Except.noConfusion h
  | cons tr rest ih =>
    obtain ⟨t, rec⟩ := tr
    simp only [validate_map_files] at h
    cases hp : validate_profiles fs tldir t rec.document_profiles with
    | error e0 =>
      rw [hp] at h
      simp only [Except.error.injEq] at h
      subst h
      obtain ⟨f, he, ⟨d, hm⟩, hfile⟩ := validate_profiles_error fs tldir t _ e0 hp
      subst he
      exact ⟨rec, List.mem_cons_self _ _, ⟨d, hm⟩, hfile⟩
    | ok u =>
      cases u
      rw [hp] at h
      cases hmd : validate_module_dir fs tldir t rec.module_directory with
      | error e0 =>
        rw [hmd] at h
        simp only [Except.error.injEq] at h
        subst h
        obtain ⟨dn, hdn, h0, hcase⟩ := validate_module_dir_error fs tldir t _ e0 hmd
        rcases hcase with ⟨he, hdir⟩ | ⟨he, hdir⟩
        · subst he
          exact ⟨rec, List.mem_cons_self _ _, hdn, h0, hdir⟩
        · subst he
          exact ⟨t, rec, dn, List.mem_cons_self _ _, hdn, h0, rfl, hdir⟩
      | ok u =>
        cases u
        rw [hmd] at h
        have hrest := ih h
        cases e with
        | profileFileMissing f t' =>
          obtain ⟨rec', hmem, hd, hfile⟩ := hrest
          exact ⟨rec', List.mem_cons_of_mem _ hmem, hd, hfile⟩
        | moduleDirMissing dn t' =>
          obtain ⟨rec', hmem, hdn, h0, hdir⟩ := hrest
          exact ⟨rec', List.mem_cons_of_mem _ hmem, hdn, h0, hdir⟩
        | localModuleDirMissing dp =>
          obtain ⟨t', rec', dn, hmem, hdn, h0, hdp, hdir⟩ := hrest
          exact ⟨t', rec', dn, List.mem_cons_of_mem _ hmem, hdn, h0, hdp, hdir⟩

/-- C5: loading validates every target. Validation accepts exactly when
every listed profile file exists as a regular file in the working tree and
every configured module directory exists as a directory both at its path
and, by base name, under the working-tree root; any missing profile file
makes loading fail rather than being silently dropped; every failure
diagnostic names a genuinely missing item of the stated kind and target;
loading succeeds exactly when validation does; and a concrete map with one
missing profile file fails naming exactly that file and target. -/
theorem c5_filemap_validation (fs : String → FSEntry) (tldir : String)
    (fm : Filemap) :
    (validate_map_files fs tldir fm = .ok () ↔
      ∀ tr ∈ fm,
        (∀ p ∈ tr.2.document_profiles, isFileEntry (fs (pathJoin tldir p.1)) = true)
        ∧ (∀ dn, tr.2.module_directory = some dn → dn ≠ "" →
            isDirEntry (fs dn) = true
              ∧ isDirEntry (fs (pathJoin tldir (baseName dn))) = true))
  ∧ ((∃ tr ∈ fm, ∃ p ∈ tr.2.document_profiles,
        isFileEntry (fs (pathJoin tldir p.1)) = false) →
      ∃ e, validate_map_files fs tldir fm = .error e)
  ∧ (∀ e, validate_map_files fs tldir fm = .error e → errNamesViolation fs tldir fm e)
  ∧ (∀ (mf : String) (parsed : Filemap), isFileEntry (fs (pathJoin tldir mf)) = true →
      (load_filemap fs tldir mf parsed = .ok parsed ↔
        validate_map_files fs tldir parsed = .ok ()))
  ∧ validate_map_files
      (fun p => if p = "root/present.js" then FSEntry.file "x" else FSEntry.absent)
      "root"
      [("T", { document_profiles := [("present.js", "d0"), ("missing.js", "d1")],
               module_directory := none })]
      = .error (.profileFileMissing "missing.js" "T") := by
  refine ⟨validate_map_files_ok_iff fs tldir fm, ?_, ?_, ?_, rfl⟩
  · intro hviol
    cases hres : validate_map_files fs tldir fm with
    | error e => exact ⟨e, rfl⟩
    | ok u =>
      cases u
      obtain ⟨tr, htr, p, hp, hfile⟩ := hviol
      have := ((validate_map_files_ok_iff fs tldir fm).mp hres tr htr).1 p hp
      rw [this] at hfile
      exact Bool.noConfusion hfile
  · intro e he
    exact validate_map_files_error fs tldir fm e he
  · intro mf parsed hfile
    simp only [load_filemap, if_pos hfile]
    cases hres : validate_map_files fs tldir parsed with
    | error e =>
      constructor
      · intro h
        exact Except.noConfusion h
      · intro h
        exact Except.noConfusion h
    | ok u =>
      cases u
      simp

/-- Witness for C5: the diagnostic soundness clause applied to a concrete
map whose only violation is one missing profile file. -/
theorem c5_filemap_validation_witness :
    errNamesViolation
      (fun p => if p = "root/present.js" then FSEntry.file "x" else FSEntry.absent)
      "root"
      [("T", { document_profiles := [("present.js", "d0"), ("missing.js", "d1")],
               module_directory := none })]
      (.profileFileMissing "missing.js" "T") :=
  (c5_filemap_validation
    (fun p => if p = "root/present.js" then FSEntry.file "x" else FSEntry.absent)
    "root"
    [("T", { document_profiles := [("present.js", "d0"), ("missing.js", "d1")],
             module_directory := none })]).2.2.1
    (.profileFileMissing "missing.js" "T") rfl

/-- C1: the per-target failure handling of push is broken by the loop-local
response variable of _send_all, which is not reset between iterations. An
OSError raised inside _post_files_to_target before response is assigned
(here a PermissionError from an unreadable profile file of target T2) is
caught, but the loop then records the PREVIOUS target response under the
failing target: with T1 succeeding with response 7, T2 fails yet the result
maps T2 to 7, so the failing target does contribute an entry, and the tag
would cover it. When the same failure hits the FIRST target, reading the
never-assigned response raises UnboundLocalError, which is not caught: the
push crashes instead of logging and attempting remaining targets. -/
theorem c1_send_all_stale_response :
    send_all (fun p => if p = "root/a.js" then FSEntry.file "A"
        else if p = "root/b.js" then FSEntry.unreadable else FSEntry.absent)
      "root" (fun t => if t = "T1" then [("a.js", "d1")] else [("b.js", "d2")])
      ([("T1", { promptYes := true, net := .ok (some 7) }),
        ("T2", { promptYes := true, net := .ok (some 8) })]
        : List (String × TargetRun Nat))
      = .ok [("T1", 7), ("T2", 7)]
  ∧ send_all (fun p => if p = "root/a.js" then FSEntry.file "A"
        else if p = "root/b.js" then FSEntry.unreadable else FSEntry.absent)
      "root" (fun t => if t = "T1" then [("a.js", "d1")] else [("b.js", "d2")])
      ([("T2", { promptYes := true, net := .ok (some 8) })]
        : List (String × TargetRun Nat))
      = .error .unboundLocal :=
  ⟨rfl, rfl⟩

/-- C3 counterexample: when target T1 succeeds and target T2 fails with a
network error, the created tag is named after the responding targets only
(push.T1....), not after all requested targets joined by dashes
(push.T1-T2....) as the claim states. -/
theorem c3_tag_name_counterexample :
    push_execute (fun p => if p = "root/a.js" then FSEntry.file "A" else FSEntry.absent)
      "root" (fun _ => [("a.js", "docId123")]) (.success "") true
      ([("T1", { promptYes := true, net := .ok (some [("docId123", 5)]) }),
        ("T2", { promptYes := true, net := .error () })]
        : List (String × TargetRun (List (String × Nat))))
      "2026-01-01T12:00:00.123456"
      = .ok (some { tagName := "push.T1.20260101T120000",
                    message := [("T1", [("a.js", 5)])] })
  ∧ "push.T1.20260101T120000"
      ≠ "push." ++ String.intercalate "-" ["T1", "T2"] ++ "."
          ++ timestamp_of_iso "2026-01-01T12:00:00.123456" :=
  ⟨rfl, by decide⟩

/-- C3 (amended): when the commit gate passes and the send phase returns a
response map, push creates exactly one tag precisely when that map is
nonempty; the tag name is push. followed by the names of the targets that
produced a response (the keys of the response map, in order) joined by
dashes, then a dot and the clock timestamp with dashes and colons removed
and fractional seconds cut, which renders an ISO clock reading in the
YYYYMMDDTHHMMSS format; the annotation body is the remapped,
filename-keyed response map. No tag is created when every target failed. -/
theorem c3_push_tag (ν : Type) (fs : String → FSEntry) (tldir : String)
    (profilesFor : String → List (String × String)) (gitStatus : CliOutcome)
    (allow : Bool) (runs : List (String × TargetRun (List (String × ν))))
    (now_iso : String) (rs : List (String × List (String × ν)))
    (hvalid : commit_state_is_valid gitStatus allow = .ok true)
    (hsend : send_all fs tldir profilesFor runs = .ok rs) :
    (rs ≠ [] → push_execute fs tldir profilesFor gitStatus allow runs now_iso
      = .ok (some { tagName := "push." ++ String.intercalate "-" (rs.map Prod.fst)
                      ++ "." ++ timestamp_of_iso now_iso,
                    message := remap_target_responses profilesFor rs }))
  ∧ (rs = [] → push_execute fs tldir profilesFor gitStatus allow runs now_iso
      = .ok none)
  ∧ timestamp_of_iso "2026-01-01T12:00:00.123456" = "20260101T120000" := by
  refine ⟨?_, ?_, rfl⟩
  · intro hne
    have hni : rs.isEmpty = false := by
      cases rs with
      | nil => exact absurd rfl hne
      | cons a l => rfl
    simp only [push_execute, hvalid, hsend, hni, Bool.false_eq_true, if_false,
      create_git_tags, remap_target_responses, List.map_map]
    rfl
  · intro hnil
    subst hnil
    simp [push_execute, hvalid, hsend]

/-- Witness for C3: the amended tag description applied to a concrete run
with one responding target. -/
theorem c3_push_tag_witness :
    push_execute (fun p => if p = "root/a.js" then FSEntry.file "A" else FSEntry.absent)
      "root" (fun _ => [("a.js", "docId123")]) (.success "") true
      ([("T1", { promptYes := true, net := .ok (some [("docId123", 5)]) })]
        : List (String × TargetRun (List (String × Nat))))
      "2026-01-01T12:00:00.123456"
      = .ok (some { tagName := "push." ++ String.intercalate "-"
                      (([("T1", [("docId123", 5)])]
                        : List (String × List (String × Nat))).map Prod.fst)
                      ++ "." ++ timestamp_of_iso "2026-01-01T12:00:00.123456",
                    message := remap_target_responses (fun _ => [("a.js", "docId123")])
                      [("T1", [("docId123", 5)])] }) :=
  (c3_push_tag Nat
    (fun p => if p = "root/a.js" then FSEntry.file "A" else FSEntry.absent)
    "root" (fun _ => [("a.js", "docId123")]) (.success "") true
    [("T1", { promptYes := true, net := .ok (some [("docId123", 5)]) })]
    "2026-01-01T12:00:00.123456" [("T1", [("docId123", 5)])]
    rfl rfl).1 (by decide)

/-- C2 counterexample: on a 2xx response with a JSON content type and the
unparsable body oops, the adaptor returns the raw body text, not an absent
value as the claim states. The decoder argument models the external JSON
decoder failing on this body, as the stdlib decoder does. -/
theorem c2_unparsable_json_counterexample :
    response_hander (fun _ => (none : Option Unit))
        { status := 200, contentType := "application/json", body := "oops" }
      = .ok (some (.text "oops"))
  ∧ (some (Contents.text "oops") : Option (Contents Unit)) ≠ none :=
  ⟨rfl, by simp⟩

/-- C2 (amended): for every HTTP response, one normalization step applies:
a 2xx status returns the normalized body, where an HTML content type
reduces the body element to its visible text joined by newlines, a JSON
content type with an unparsable body yields an error log entry and the raw
body text passed through unchanged (an absent value only when the body is
empty), and an empty body yields an absent value; status 400 raises a
client/request error carrying the normalized body, status 401 an
authentication error, and any other non-2xx status a generic remote
error. -/
theorem c2_response_normalization {J : Type} (jsonDecode : String → Option J)
    (r : HttpResponse) :
    response_hander jsonDecode
        { status := 200, contentType := "text/html", body := "<body>Hello<br/>World</body>" }
      = .ok (some (.text "Hello\nWorld"))
  ∧ (200 ≤ r.status ∧ r.status ≤ 299 →
      strContains (toLowerStr r.contentType) "text/html" = false →
      strContains (toLowerStr r.contentType) "application/xhtml+xml" = false →
      strContains (toLowerStr r.contentType) "application/json" = true →
      jsonDecode r.body = none → r.body ≠ "" →
      response_hander jsonDecode r = .ok (some (.text r.body)))
  ∧ (200 ≤ r.status ∧ r.status ≤ 299 → r.body = "" → jsonDecode "" = none →
      response_hander jsonDecode r = .ok none)
  ∧ (r.status = 400 →
      response_hander jsonDecode r = .badRequest (parse_contents jsonDecode r))
  ∧ (r.status = 401 →
      response_hander jsonDecode r = .invalidAuth (parse_contents jsonDecode r))
  ∧ (¬ (200 ≤ r.status ∧ r.status ≤ 299) → r.status ≠ 400 → r.status ≠ 401 →
      response_hander jsonDecode r = .respError r.status (parse_contents jsonDecode r)) := by
  refine ⟨rfl, ?_, ?_, ?_, ?_, ?_⟩
  · intro h2xx hhtml hxhtml hjson hdec hne
    simp [response_hander, parse_contents, h2xx.1, h2xx.2, hhtml, hxhtml, hjson, hdec, hne]
  · intro h2xx hbody hdec
    have hsoup : soupBodyText "" = none := rfl
    have hpc : parse_contents jsonDecode r = none := by
      simp [parse_contents, hbody, hsoup, hdec]
    simp [response_hander, hpc, h2xx.1, h2xx.2]
  · intro h
    simp [response_hander, h]
  · intro h
    simp [response_hander, h]
  · intro hn2 h400 h401
    simp [response_hander, hn2, h400, h401]

/-- Witness for C2: the unparsable-JSON clause of the amended theorem at a
concrete response. -/
theorem c2_response_normalization_witness :
    response_hander (fun _ => (none : Option Unit))
        { status := 201, contentType := "application/json", body := "not json" }
      = .ok (some (.text "not json")) :=
  ((c2_response_normalization (fun _ => (none : Option Unit))
      { status := 201, contentType := "application/json", body := "not json" }).2.1)
    (by decide) (by decide) (by decide) (by decide) rfl (by decide)

/-- Witness for C4: the quantified scheme clause applied to a concrete
non-https URL. -/
theorem c4_validate_url_witness :
    ∃ e, validate_url { scheme := "ftp", netloc := "h.example", path := "/fmax/" }
      "ftp://h.example/fmax/" = .error e :=
  c4_validate_url.1 { scheme := "ftp", netloc := "h.example", path := "/fmax/" }
    "ftp://h.example/fmax/" (by decide)
